import Mathlib

/-!
Verification of the configuration store and photo resolver of the
ha-screensaver service, shallowly embedded from `src/src/main.rs`.

The embedding covers:
* the `Config` record and its serde_json serialization (the exact
  `to_string_pretty` text) and deserialization (a JSON parser for the
  fragment the service reads and writes, followed by the derived
  field-collecting conversion into `Config`);
* the three request handlers `get_config`, `update_config`, `get_photos`,
  with the mutex-guarded shared state passed explicitly, the `config.json`
  disk file modelled as an optional string, and `std::fs` outcomes
  (write success, `read_dir` success) passed as explicit parameters;
* the startup load-or-default block of `main`.

A Rust `panic!` arising from `.unwrap()` is modelled by an `Option`-valued
result being `none`.
-/

namespace Screensaver

/-- Embeds the `Config` struct (main.rs lines 6-11).  `idle_timeout_seconds`
is a `u32` in the source; it is embedded as a `Nat`, with representability
in the Rust type (`< 2^32`) tracked by `Config.Valid` where it matters. -/
structure Config where
  home_assistant_url : String
  photos_folder : String
  idle_timeout_seconds : Nat
  deriving Repr, DecidableEq

/-- A `Config` value representable in the Rust type: the `u32` field fits
in 32 bits.  The two string fields need no side condition. -/
def Config.Valid (c : Config) : Prop := c.idle_timeout_seconds < 2 ^ 32

instance (c : Config) : Decidable c.Valid := by
  unfold Config.Valid
  infer_instance

/-- JSON values, as produced by the serde_json parser for the fragment this
service reads and writes.  Numbers are integers: `Config` holds no float
field, and the embedded parser rejects a fraction or exponent outright
where serde_json would first parse a float value that the typed `Config`
deserialization then rejects — the composed outcome is the same. -/
inductive Json where
  | null : Json
  | bool (b : Bool) : Json
  | num (n : Int) : Json
  | str (s : String) : Json
  | arr (elems : List Json) : Json
  | obj (fields : List (String × Json)) : Json
  deriving Repr

/-- The character U+007B, an opening curly brace. -/
def lbraceChar : Char := Char.ofNat 123

/-- The character U+007D, a closing curly brace. -/
def rbraceChar : Char := Char.ofNat 125

/-- Lower-case hexadecimal digit, as used by serde_json's `\u00XX` escapes. -/
def hexDigitChar (n : Nat) : Char :=
  if n < 10 then Char.ofNat (48 + n) else Char.ofNat (87 + n)

/-- Embeds serde_json string escaping: `"` and `\` are escaped, the five
control characters BS HT LF FF CR get their short escapes, every other
control character below U+0020 becomes `\u00XX` with lower-case hex, and
all remaining characters are emitted verbatim. -/
def escapeChar (c : Char) : List Char :=
  if c = '"' then ['\\', '"']
  else if c = '\\' then ['\\', '\\']
  else if c = '\x08' then ['\\', 'b']
  else if c = '\x09' then ['\\', 't']
  else if c = '\x0a' then ['\\', 'n']
  else if c = '\x0c' then ['\\', 'f']
  else if c = '\x0d' then ['\\', 'r']
  else if c.toNat < 32 then
    ['\\', 'u', '0', '0', hexDigitChar (c.toNat / 16), hexDigitChar (c.toNat % 16)]
  else [c]

/-- serde_json escaping applied to a whole string (as a character list). -/
def escapeString : List Char → List Char
  | [] => []
  | c :: cs => escapeChar c ++ escapeString cs

/-- Decimal digit character for a digit value below ten. -/
def natDigitChar (d : Nat) : Char := Char.ofNat (48 + d)

/-- Standard decimal rendering of a natural number, most significant digit
first, as the Rust integer formatter emits it for a `u32`. -/
def renderNat (n : Nat) : List Char :=
  if n < 10 then [natDigitChar n]
  else renderNat (n / 10) ++ [natDigitChar (n % 10)]
termination_by n
decreasing_by
  exact Nat.div_lt_self (by omega) (by omega)

/-- The exact text serde_json's `to_string_pretty` produces for a `Config`
value: two-space indent, fields in declaration order, `": "` separators,
no trailing newline. -/
def configJsonChars (c : Config) : List Char :=
  lbraceChar :: ("\n  \"home_assistant_url\": \"".data
    ++ escapeString c.home_assistant_url.data
    ++ "\",\n  \"photos_folder\": \"".data
    ++ escapeString c.photos_folder.data
    ++ "\",\n  \"idle_timeout_seconds\": ".data
    ++ renderNat c.idle_timeout_seconds
    ++ '\n' :: [rbraceChar])

/-- `serde_json::to_string_pretty` applied to a `Config` value. -/
def configToJsonPretty (c : Config) : String := String.mk (configJsonChars c)

/-- JSON insignificant whitespace. -/
def isWsChar (c : Char) : Bool := c = ' ' || c = '\x09' || c = '\x0a' || c = '\x0d'

/-- Drop leading JSON whitespace. -/
def skipWs (l : List Char) : List Char := l.dropWhile isWsChar

/-- ASCII decimal digit test. -/
def isDigitChar (c : Char) : Bool := 48 ≤ c.toNat && c.toNat ≤ 57

/-- Value of an ASCII decimal digit. -/
def digitVal (c : Char) : Nat := c.toNat - 48

/-- Value of a most-significant-first digit run. -/
def digitsToNat (ds : List Char) : Nat := ds.foldl (fun a c => a * 10 + digitVal c) 0

/-- Parses a run of decimal digits into a natural number, returning the
unconsumed input.  Rejects an empty run and a leading zero followed by
further digits, as the JSON grammar (and serde_json) do. -/
def parseNat (l : List Char) : Option (Nat × List Char) :=
  let ds := l.takeWhile isDigitChar
  let rest := l.dropWhile isDigitChar
  if ds = [] then none
  else if 1 < ds.length ∧ ds.head? = some '0' then none
  else some (digitsToNat ds, rest)

/-- True when the input continues with a fraction or exponent marker. -/
def floatFollows (l : List Char) : Bool :=
  match l with
  | c :: _ => c = '.' || c = 'e' || c = 'E'
  | [] => false

/-- Parses a JSON number restricted to the integer fragment: an optional
minus sign and a digit run.  A following `.`/`e`/`E` (a float) is rejected
here; serde_json would parse such a value as a float, which the `u32`
field deserialization then rejects, so the composed result agrees. -/
def parseNumber (l : List Char) : Option (Json × List Char) :=
  if l.head? = some '-' then
    match parseNat l.tail with
    | some (n, r) => if floatFollows r then none else some (.num (-(n : Int)), r)
    | none => none
  else
    match parseNat l with
    | some (n, r) => if floatFollows r then none else some (.num (n : Int), r)
    | none => none

/-- Resolves a single-character JSON string escape. -/
def unescapeChar (c : Char) : Option Char :=
  if c = '"' then some '"'
  else if c = '\\' then some '\\'
  else if c = '/' then some '/'
  else if c = 'b' then some '\x08'
  else if c = 'f' then some '\x0c'
  else if c = 'n' then some '\x0a'
  else if c = 'r' then some '\x0d'
  else if c = 't' then some '\x09'
  else none

/-- Value of one hexadecimal digit character. -/
def hexVal (c : Char) : Option Nat :=
  if 48 ≤ c.toNat ∧ c.toNat ≤ 57 then some (c.toNat - 48)
  else if 97 ≤ c.toNat ∧ c.toNat ≤ 102 then some (c.toNat - 87)
  else if 65 ≤ c.toNat ∧ c.toNat ≤ 70 then some (c.toNat - 55)
  else none

/-- Value of a four-digit hexadecimal escape payload. -/
def hex4 (a b c d : Char) : Option Nat :=
  match hexVal a, hexVal b, hexVal c, hexVal d with
  | some x, some y, some z, some w => some (x * 4096 + y * 256 + z * 16 + w)
  | _, _, _, _ => none

/-- Parses the body of a JSON string after its opening quote, up to and
including the closing quote; returns the decoded characters and the
unconsumed input.  Raw control characters are rejected, escapes are
decoded.  UTF-16 surrogate-pair escapes are not modelled: a `\uXXXX`
in the surrogate range is rejected (the renderer never emits one, and no
value this service writes contains one). -/
def parseStringBody : List Char → Option (List Char × List Char)
  | [] => none
  | c :: rest =>
    if c = '"' then some ([], rest)
    else if c = '\\' then
      match rest with
      | [] => none
      | e :: rest2 =>
        if e = 'u' then
          match rest2 with
          | h1 :: h2 :: h3 :: h4 :: rest3 =>
            match hex4 h1 h2 h3 h4 with
            | some n =>
              if 0xd800 ≤ n ∧ n ≤ 0xdfff then none
              else
                match parseStringBody rest3 with
                | some (s, r) => some (Char.ofNat n :: s, r)
                | none => none
            | none => none
          | _ => none
        else
          match unescapeChar e with
          | some c2 =>
            match parseStringBody rest2 with
            | some (s, r) => some (c2 :: s, r)
            | none => none
          | none => none
    else if c.toNat < 32 then none
    else
      match parseStringBody rest with
      | some (s, r) => some (c :: s, r)
      | none => none
termination_by l => l.length
decreasing_by
  all_goals simp +arith [List.length_cons]

mutual

/-- Recursive-descent parser for a JSON value, fuel-indexed to bound the
recursion; every recursive call spends one unit of fuel, and the top-level
entry point supplies more fuel than the input length, so fuel never runs
out on genuine input. -/
def parseValue : Nat → List Char → Option (Json × List Char)
  | 0, _ => none
  | fuel + 1, l =>
    match skipWs l with
    | [] => none
    | c :: rest =>
      if c = lbraceChar then
        match skipWs rest with
        | [] => none
        | c2 :: rest2 =>
          if c2 = rbraceChar then some (.obj [], rest2)
          else
            match parseMembers fuel (c2 :: rest2) with
            | some (ms, r) => some (.obj ms, r)
            | none => none
      else if c = '[' then
        match skipWs rest with
        | [] => none
        | c2 :: rest2 =>
          if c2 = ']' then some (.arr [], rest2)
          else
            match parseElems fuel (c2 :: rest2) with
            | some (es, r) => some (.arr es, r)
            | none => none
      else if c = '"' then
        match parseStringBody rest with
        | some (s, r) => some (.str (String.mk s), r)
        | none => none
      else if c = 't' then
        match rest with
        | 'r' :: 'u' :: 'e' :: r => some (.bool true, r)
        | _ => none
      else if c = 'f' then
        match rest with
        | 'a' :: 'l' :: 's' :: 'e' :: r => some (.bool false, r)
        | _ => none
      else if c = 'n' then
        match rest with
        | 'u' :: 'l' :: 'l' :: r => some (.null, r)
        | _ => none
      else parseNumber (c :: rest)

/-- Parses the non-empty member list of a JSON object, consuming the
closing brace. -/
def parseMembers : Nat → List Char → Option (List (String × Json) × List Char)
  | 0, _ => none
  | fuel + 1, l =>
    match skipWs l with
    | [] => none
    | c :: rest =>
      if c = '"' then
        match parseStringBody rest with
        | some (k, r1) =>
          match skipWs r1 with
          | [] => none
          | c2 :: r2 =>
            if c2 = ':' then
              match parseValue fuel r2 with
              | some (v, r3) =>
                match skipWs r3 with
                | [] => none
                | c4 :: r4 =>
                  if c4 = ',' then
                    match parseMembers fuel r4 with
                    | some (ms, r5) => some ((String.mk k, v) :: ms, r5)
                    | none => none
                  else if c4 = rbraceChar then some ([(String.mk k, v)], r4)
                  else none
              | none => none
            else none
        | none => none
      else none

/-- Parses the non-empty element list of a JSON array, consuming the
closing bracket. -/
def parseElems : Nat → List Char → Option (List Json × List Char)
  | 0, _ => none
  | fuel + 1, l =>
    match parseValue fuel l with
    | some (v, r) =>
      match skipWs r with
      | [] => none
      | c2 :: r2 =>
        if c2 = ',' then
          match parseElems fuel r2 with
          | some (es, r3) => some (v :: es, r3)
          | none => none
        else if c2 = ']' then some ([v], r2)
        else none
    | none => none

end

/-- `serde_json::from_str` down to a JSON value: parse one value and
require only whitespace to remain. -/
def parseJson (s : String) : Option Json :=
  match parseValue (s.data.length + 1) s.data with
  | some (j, rest) => if skipWs rest = [] then some j else none
  | none => none

/-- Field collection of the derived `Deserialize` for `Config`: walks the
object members in order filling the three field slots; a duplicate field,
a wrongly typed field, an out-of-range `u32`, or a missing field is an
error; an unknown field is ignored (serde's default). -/
def collectFields : List (String × Json) → Option String → Option String → Option Nat → Option Config
  | [], hu, pf, it =>
    match hu with
    | none => none
    | some u =>
      match pf with
      | none => none
      | some p =>
        match it with
        | none => none
        | some i =>
          some { home_assistant_url := u, photos_folder := p, idle_timeout_seconds := i }
  | (k, v) :: rest, hu, pf, it =>
    if k = "home_assistant_url" then
      match hu with
      | some _ => none
      | none =>
        match v with
        | .str s => collectFields rest (some s) pf it
        | _ => none
    else if k = "photos_folder" then
      match pf with
      | some _ => none
      | none =>
        match v with
        | .str s => collectFields rest hu (some s) it
        | _ => none
    else if k = "idle_timeout_seconds" then
      match it with
      | some _ => none
      | none =>
        match v with
        | .num n =>
          if 0 ≤ n ∧ n < 4294967296 then collectFields rest hu pf (some n.toNat) else none
        | _ => none
    else collectFields rest hu pf it

/-- Typed conversion of a parsed JSON value into a `Config`, as the derived
`Deserialize` implementation does: the value must be an object. -/
def configFromJson : Json → Option Config
  | .obj fields => collectFields fields none none none
  | _ => none

/-- `serde_json::from_str::<Config>`: parse the text, then convert. -/
def parseConfigString (s : String) : Option Config :=
  match parseJson s with
  | some j => configFromJson j
  | none => none

/-- The JSON value that `configJsonChars` renders and the parser recovers:
the three fields in declaration order. -/
def configJson (c : Config) : Json :=
  .obj [("home_assistant_url", .str c.home_assistant_url),
    ("photos_folder", .str c.photos_folder),
    ("idle_timeout_seconds", .num (c.idle_timeout_seconds : Int))]

/-- Embeds the `AppState` struct (main.rs lines 13-15): the single shared,
mutex-guarded configuration value.  The mutex is modelled by the state
being threaded explicitly through each handler. -/
structure AppState where
  config : Config
  deriving Repr, DecidableEq

/-- The hard-coded default `Config` built in `main` (main.rs lines 76-80)
when no `config.json` file exists. -/
def default_config : Config :=
  { home_assistant_url := "http://homeassistant.local:8123"
    photos_folder := "./photos"
    idle_timeout_seconds := 60 }

/-- Embeds the handler `get_config` (main.rs lines 17-21): lock the state,
clone the configuration and return it; the state is left unchanged. -/
def get_config (s : AppState) : AppState × Config := (s, s.config)

/-- Embeds the handler `update_config` (main.rs lines 23-36): lock the
state, replace the configuration with the request body, pretty-print it
and write it to `config.json`, then echo the stored value.  The disk file
is `disk` (`none` = absent), the outcome of `std::fs::write` is the
parameter `writeOk`; the write result is unwrapped in the source, so a
failed write panics (result `none`) after the in-memory value has already
been replaced, leaving the disk file as it was. -/
def update_config (s : AppState) (disk : Option String) (writeOk : Bool)
    (new_config : Config) : AppState × Option String × Option Config :=
  let s2 : AppState := { config := new_config }
  let config_json := configToJsonPretty new_config
  if writeOk then (s2, some config_json, some new_config)
  else (s2, disk, none)

/-- Embeds the load-or-create block of `main` (main.rs lines 72-81): when
`config.json` exists its content is read and parsed with both results
unwrapped (a parse failure panics, modelled by `none`); when the file is
absent the hard-coded default is used. -/
def load_config (disk : Option String) : Option Config :=
  match disk with
  | some config_str => parseConfigString config_str
  | none => some default_config

/-- One directory entry as surfaced by `std::fs::read_dir`: its file name
(one path component) and whether it is a regular file.  The source never
consults file-ness; the flag exists so that statements about it can be
made.  `canonicalize` is modelled as succeeding with a canonical path
whose final component is the entry name (symbolic links are not
modelled). -/
structure DirEntry where
  name : String
  isFile : Bool
  deriving Repr, DecidableEq

/-- Splits a character list at its first dot: the part before and the part
after, or `none` when no dot occurs. -/
def splitAtFirstDot : List Char → Option (List Char × List Char)
  | [] => none
  | c :: cs =>
    if c = '.' then some ([], cs)
    else
      match splitAtFirstDot cs with
      | some (a, b) => some (c :: a, b)
      | none => none

/-- Embeds `std::path::Path::extension` on a bare file name: the portion
after the last dot, unless there is no dot or the only dot is the leading
character (a dotfile has no extension); a trailing dot yields the empty
extension. -/
def rustExtension (name : List Char) : Option (List Char) :=
  match splitAtFirstDot name.reverse with
  | some (extRev, stemRev) => if stemRev = [] then none else some extRev.reverse
  | none => none

/-- ASCII lower-casing of one character, the fragment of Rust
`str::to_lowercase` exercised by the extension filter (every extension in
the matched set is pure ASCII). -/
def toLowerAscii (c : Char) : Char :=
  if 65 ≤ c.toNat ∧ c.toNat ≤ 90 then Char.ofNat (c.toNat + 32) else c

/-- Lower-cases a character list. -/
def lowerAscii (s : List Char) : List Char := s.map toLowerAscii

/-- The extension filter of `get_photos` (main.rs line 52): the lower-cased
extension is one of jpg, jpeg, png, gif, webp. -/
def isImageExt (e : List Char) : Bool :=
  lowerAscii e = "jpg".data ∨ lowerAscii e = "jpeg".data ∨ lowerAscii e = "png".data
    ∨ lowerAscii e = "gif".data ∨ lowerAscii e = "webp".data

/-- True when an entry name passes the `get_photos` filter: it has an
extension and that extension, lower-cased, is in the image set. -/
def extMatches (name : String) : Bool :=
  match rustExtension name.data with
  | some e => isImageExt e
  | none => false

/-- The photo reference emitted for a surviving entry: the fixed `/photos/`
route segment followed by the bare file name. -/
def photoRef (name : String) : String := String.mk ("/photos/".data ++ name.data)

/-- The per-entry loop body of `get_photos` (main.rs lines 48-59) applied
to a directory listing: each entry whose (canonicalized) name carries an
image extension, case-insensitively, contributes `/photos/<name>`; nothing
else is consulted — in particular `isFile` is not. -/
def get_photos_scan (entries : List DirEntry) : List String :=
  entries.filterMap fun e =>
    match rustExtension e.name.data with
    | some ext => if isImageExt ext then some (photoRef e.name) else none
    | none => none

/-- Embeds the handler `get_photos` (main.rs lines 38-65): lock the state,
clone the photos folder, release the lock, then scan the folder.  The
filesystem is the function `readDir` from a path to its listing (`none` =
the directory cannot be opened or enumerated); on `none` the accumulator
stays empty.  The handler always answers with a plain list and leaves the
state unchanged. -/
def get_photos (s : AppState) (readDir : String → Option (List DirEntry)) :
    AppState × List String :=
  let photos_folder := s.config.photos_folder
  match readDir photos_folder with
  | some entries => (s, get_photos_scan entries)
  | none => (s, [])

/-- Modelled from the spec: the external-list photo strategy is absent from
`src/src/main.rs` (the `Config` struct has no album-identifier field and
`get_photos` only scans a folder).  The spec describes it as a stub that
"returns a fixed, hard-coded placeholder list independent of album
identifiers"; the spec does not fix the list's contents, so an arbitrary
fixed constant stands for it. -/
def placeholder_photos : List String := ["/photos/placeholder.jpg"]

/-- Modelled from the spec: the external-list resolution strategy — a stub
returning the fixed placeholder list whatever the configured album
identifiers are, and never failing. -/
def external_list_photos (album_ids : List String) : List String :=
  placeholder_photos

theorem hexVal_hexDigitChar : ∀ d : Nat, d < 16 → hexVal (hexDigitChar d) = some d := by
  decide

theorem psb_quote (rest : List Char) : parseStringBody ('"' :: rest) = some ([], rest) := by
  rw [parseStringBody.eq_def]
  simp

theorem psb_esc (e c2 : Char) (hne : ¬e = 'u') (he : unescapeChar e = some c2)
    (l s r : List Char) (hl : parseStringBody l = some (s, r)) :
    parseStringBody ('\\' :: e :: l) = some (c2 :: s, r) := by
  rw [parseStringBody.eq_def]
  simp +decide [hne, he, hl]

theorem psb_unicode (t : Nat) (ht : t < 32) (l s r : List Char)
    (hl : parseStringBody l = some (s, r)) :
    parseStringBody
      ('\\' :: 'u' :: '0' :: '0' :: hexDigitChar (t / 16) :: hexDigitChar (t % 16) :: l)
      = some (Char.ofNat t :: s, r) := by
  have e1 : hexVal (hexDigitChar (t / 16)) = some (t / 16) := hexVal_hexDigitChar _ (by omega)
  have e2 : hexVal (hexDigitChar (t % 16)) = some (t % 16) := hexVal_hexDigitChar _ (by omega)
  rw [parseStringBody.eq_def]
  simp +decide [hex4, show hexVal '0' = some 0 from by decide, e1, e2, hl]
  constructor
  · omega
  · rw [show t / 16 * 16 + t % 16 = t from by omega]

theorem psb_plain_cons (c : Char) (h1 : ¬c = '"') (h2 : ¬c = '\\') (h8 : ¬c.toNat < 32)
    (l s r : List Char) (hl : parseStringBody l = some (s, r)) :
    parseStringBody (c :: l) = some (c :: s, r) := by
  rw [parseStringBody.eq_def]
  simp [h1, h2, h8, hl]

theorem parseStringBody_escapeString (s rest : List Char) :
    parseStringBody (escapeString s ++ '"' :: rest) = some (s, rest) := by
  induction s with
  | nil =>
    rw [escapeString, List.nil_append]
    exact psb_quote rest
  | cons c cs ih =>
    rw [escapeString, List.append_assoc]
    by_cases h1 : c = '"'
    · subst h1
      rw [show escapeChar '"' = ['\\', '"'] from rfl]
      simp only [List.cons_append, List.nil_append]
      exact psb_esc _ _ (by decide) (by decide) _ _ _ ih
    · by_cases h2 : c = '\\'
      · subst h2
        rw [show escapeChar '\\' = ['\\', '\\'] from rfl]
        simp only [List.cons_append, List.nil_append]
        exact psb_esc _ _ (by decide) (by decide) _ _ _ ih
      · by_cases h3 : c = '\x08'
        · subst h3
          rw [show escapeChar '\x08' = ['\\', 'b'] from rfl]
          simp only [List.cons_append, List.nil_append]
          exact psb_esc _ _ (by decide) (by decide) _ _ _ ih
        · by_cases h4 : c = '\x09'
          · subst h4
            rw [show escapeChar '\x09' = ['\\', 't'] from rfl]
            simp only [List.cons_append, List.nil_append]
            exact psb_esc _ _ (by decide) (by decide) _ _ _ ih
          · by_cases h5 : c = '\x0a'
            · subst h5
              rw [show escapeChar '\x0a' = ['\\', 'n'] from rfl]
              simp only [List.cons_append, List.nil_append]
              exact psb_esc _ _ (by decide) (by decide) _ _ _ ih
            · by_cases h6 : c = '\x0c'
              · subst h6
                rw [show escapeChar '\x0c' = ['\\', 'f'] from rfl]
                simp only [List.cons_append, List.nil_append]
                exact psb_esc _ _ (by decide) (by decide) _ _ _ ih
              · by_cases h7 : c = '\x0d'
                · subst h7
                  rw [show escapeChar '\x0d' = ['\\', 'r'] from rfl]
                  simp only [List.cons_append, List.nil_append]
                  exact psb_esc _ _ (by decide) (by decide) _ _ _ ih
                · by_cases h8 : c.toNat < 32
                  · rw [show escapeChar c =
                        ['\\', 'u', '0', '0', hexDigitChar (c.toNat / 16),
                          hexDigitChar (c.toNat % 16)] from by
                      simp [escapeChar, h1, h2, h3, h4, h5, h6, h7, h8]]
                    simp only [List.cons_append, List.nil_append]
                    rw [psb_unicode c.toNat h8 _ _ _ ih, Char.ofNat_toNat]
                  · rw [show escapeChar c = [c] from by
                      simp [escapeChar, h1, h2, h3, h4, h5, h6, h7, h8]]
                    simp only [List.cons_append, List.nil_append]
                    exact psb_plain_cons c h1 h2 h8 _ _ _ ih

theorem isDigitChar_natDigitChar : ∀ d : Nat, d < 10 → isDigitChar (natDigitChar d) = true := by
  decide

theorem digitVal_natDigitChar : ∀ d : Nat, d < 10 → digitVal (natDigitChar d) = d := by
  decide

theorem natDigitChar_ne_zero : ∀ d : Nat, d < 10 → 1 ≤ d → natDigitChar d ≠ '0' := by
  decide

theorem renderNat_all_digits (n : Nat) : ∀ c ∈ renderNat n, isDigitChar c = true := by
  induction n using Nat.strong_induction_on with
  | _ n ih =>
    rw [renderNat.eq_def]
    by_cases h : n < 10
    · rw [if_pos h]
      intro c hc
      rw [List.mem_singleton] at hc
      subst hc
      exact isDigitChar_natDigitChar n h
    · rw [if_neg h]
      intro c hc
      rcases List.mem_append.1 hc with h1 | h2
      · exact ih (n / 10) (Nat.div_lt_self (by omega) (by omega)) c h1
      · rw [List.mem_singleton] at h2
        subst h2
        exact isDigitChar_natDigitChar _ (Nat.mod_lt _ (by omega))

theorem renderNat_ne_nil (n : Nat) : renderNat n ≠ [] := by
  rw [renderNat.eq_def]
  by_cases h : n < 10
  · rw [if_pos h]
    simp
  · rw [if_neg h]
    simp

theorem digitsToNat_renderNat (n : Nat) : digitsToNat (renderNat n) = n := by
  induction n using Nat.strong_induction_on with
  | _ n ih =>
    rw [renderNat.eq_def]
    by_cases h : n < 10
    · rw [if_pos h]
      simp [digitsToNat, digitVal_natDigitChar n h]
    · rw [if_neg h]
      have ihd := ih (n / 10) (Nat.div_lt_self (by omega) (by omega))
      rw [digitsToNat] at ihd ⊢
      rw [List.foldl_append, ihd]
      simp [digitVal_natDigitChar _ (Nat.mod_lt _ (by omega : 0 < (10:Nat)))]
      omega

theorem renderNat_head_ne_zero (n : Nat) (hn : 1 ≤ n) : (renderNat n).head? ≠ some '0' := by
  induction n using Nat.strong_induction_on with
  | _ n ih =>
    rw [renderNat.eq_def]
    by_cases h : n < 10
    · rw [if_pos h]
      simp only [List.head?_cons]
      exact fun hh => natDigitChar_ne_zero n h hn (Option.some.inj hh)
    · rw [if_neg h]
      obtain ⟨d, ds, hds⟩ := List.exists_cons_of_ne_nil (renderNat_ne_nil (n / 10))
      have := ih (n / 10) (Nat.div_lt_self (by omega) (by omega)) (by
        by_contra hz
        have : n / 10 = 0 := by omega
        omega)
      rw [hds] at this ⊢
      simpa using this

theorem takeWhile_append_run (p : Char → Bool) (xs : List Char) (y : Char) (ys : List Char)
    (h1 : ∀ c ∈ xs, p c = true) (h2 : p y = false) :
    (xs ++ y :: ys).takeWhile p = xs ∧ (xs ++ y :: ys).dropWhile p = y :: ys := by
  induction xs with
  | nil =>
    simp [List.takeWhile_cons, List.dropWhile_cons, h2]
  | cons c cs ih =>
    have hc := h1 c (by simp)
    obtain ⟨e1, e2⟩ := ih fun d hd => h1 d (by simp [hd])
    simp [List.takeWhile_cons, List.dropWhile_cons, hc, e1, e2]

theorem parseNat_renderNat (n : Nat) (r : List Char) :
    parseNat (renderNat n ++ '\n' :: r) = some (n, '\n' :: r) := by
  obtain ⟨e1, e2⟩ := takeWhile_append_run isDigitChar (renderNat n) '\n' r
    (renderNat_all_digits n) (by decide)
  rw [parseNat]
  simp only [e1, e2]
  rw [if_neg (renderNat_ne_nil n)]
  have hlz : ¬(1 < (renderNat n).length ∧ (renderNat n).head? = some '0') := by
    rintro ⟨hlen, hhd⟩
    by_cases hn : 1 ≤ n
    · exact renderNat_head_ne_zero n hn hhd
    · have : n = 0 := by omega
      subst this
      rw [show renderNat 0 = ['0'] from by rw [renderNat.eq_def]; simp; decide] at hlen
      simp at hlen
  rw [if_neg hlz, digitsToNat_renderNat]

theorem parseNumber_renderNat (n : Nat) (r : List Char) :
    parseNumber (renderNat n ++ '\n' :: r) = some (Json.num (n : Int), '\n' :: r) := by
  obtain ⟨d, ds, hds⟩ := List.exists_cons_of_ne_nil (renderNat_ne_nil n)
  have hdig : isDigitChar d = true := renderNat_all_digits n d (by rw [hds]; simp)
  have hd : d ≠ '-' := by
    rintro rfl
    simp [isDigitChar] at hdig
  rw [parseNumber]
  rw [show (renderNat n ++ '\n' :: r).head? = some d from by rw [hds]; simp]
  rw [if_neg (by simpa using hd)]
  rw [parseNat_renderNat n r]
  simp [floatFollows]

theorem parseStringBody_plain (ks rest : List Char)
    (hk : ∀ c ∈ ks, c ≠ '"' ∧ c ≠ '\\' ∧ 32 ≤ c.toNat) :
    parseStringBody (ks ++ '"' :: rest) = some (ks, rest) := by
  induction ks with
  | nil =>
    rw [List.nil_append]
    exact psb_quote rest
  | cons c cs ih =>
    obtain ⟨n1, n2, n3⟩ := hk c (by simp)
    rw [List.cons_append]
    exact psb_plain_cons c n1 n2 (by omega) _ _ _
      (ih fun d hd => hk d (by simp [hd]))

theorem skipWs_cons_pos (c : Char) (l : List Char) (h : isWsChar c = true) :
    skipWs (c :: l) = skipWs l := by
  simp [skipWs, List.dropWhile_cons, h]

theorem skipWs_cons_neg (c : Char) (l : List Char) (h : isWsChar c = false) :
    skipWs (c :: l) = c :: l := by
  simp [skipWs, List.dropWhile_cons, h]

theorem digit_char_facts (c : Char) (h : isDigitChar c = true) :
    isWsChar c = false ∧ c ≠ lbraceChar ∧ c ≠ '[' ∧ c ≠ '"' ∧ c ≠ 't' ∧ c ≠ 'f'
      ∧ c ≠ 'n' ∧ c ≠ '-' := by
  simp [isDigitChar] at h
  refine ⟨?_, ?_, ?_, ?_, ?_, ?_, ?_, ?_⟩
  · simp only [isWsChar, Bool.or_eq_false_iff, decide_eq_false_iff_not]
    refine ⟨⟨⟨?_, ?_⟩, ?_⟩, ?_⟩ <;> (rintro rfl; exact absurd h (by decide))
  all_goals (rintro rfl; exact absurd h (by decide))

theorem parseValue_space_renderNat (fuel n : Nat) (r : List Char) :
    parseValue (fuel + 1) (' ' :: (renderNat n ++ '\n' :: r))
      = some (Json.num (n : Int), '\n' :: r) := by
  obtain ⟨d, ds, hds⟩ := List.exists_cons_of_ne_nil (renderNat_ne_nil n)
  have hdig : isDigitChar d = true := renderNat_all_digits n d (by rw [hds]; simp)
  obtain ⟨hws, hlb, hbk, hq, ht, hf, hn2, hm⟩ := digit_char_facts d hdig
  rw [parseValue.eq_def]
  simp only []
  rw [hds, List.cons_append]
  rw [skipWs_cons_pos _ _ (by decide), skipWs_cons_neg _ _ hws]
  simp only [hlb, hbk, hq, ht, hf, hn2, if_false, if_neg]
  rw [← List.cons_append, ← hds, parseNumber_renderNat]

theorem parseValue_space_string (fuel : Nat) (s r : List Char) :
    parseValue (fuel + 1) (' ' :: '"' :: (escapeString s ++ '"' :: r))
      = some (Json.str (String.mk s), r) := by
  rw [parseValue.eq_def]
  simp only []
  rw [skipWs_cons_pos _ _ (by decide), skipWs_cons_neg _ _ (by decide)]
  simp +decide [parseStringBody_escapeString]

theorem pm_idle (fuel n : Nat) :
    parseMembers (fuel + 2)
      ('\n' :: ' ' :: ' ' :: '"' :: 'i' :: 'd' :: 'l' :: 'e' :: '_' :: 't' :: 'i' :: 'm' :: 'e' :: 'o' :: 'u' :: 't' :: '_' :: 's' :: 'e' :: 'c' :: 'o' :: 'n' :: 'd' :: 's' :: '"' :: ':' :: ' ' :: (renderNat n ++ '\n' :: [rbraceChar]))
      = some ([("idle_timeout_seconds", Json.num (n : Int))], []) := by
  rw [parseMembers.eq_def]
  simp only []
  rw [skipWs_cons_pos _ _ (by decide), skipWs_cons_pos _ _ (by decide),
    skipWs_cons_pos _ _ (by decide), skipWs_cons_neg _ _ (by decide)]
  simp only [if_true, if_false]
  rw [show ('i' :: 'd' :: 'l' :: 'e' :: '_' :: 't' :: 'i' :: 'm' :: 'e' :: 'o' :: 'u' :: 't' :: '_' :: 's' :: 'e' :: 'c' :: 'o' :: 'n' :: 'd' :: 's' :: '"' :: ':' :: ' ' :: (renderNat n ++ '\n' :: [rbraceChar]))
      = ("idle_timeout_seconds".data ++ '"' :: ':' :: ' ' :: (renderNat n ++ '\n' :: [rbraceChar])) from rfl]
  rw [parseStringBody_plain _ _ (by decide)]
  simp only [if_true, if_false]
  rw [skipWs_cons_neg _ _ (by decide)]
  simp only [if_true, if_false]
  rw [parseValue_space_renderNat]
  simp only [if_true, if_false]
  rw [skipWs_cons_pos _ _ (by decide), skipWs_cons_neg _ _ (by decide)]
  simp only [if_true, if_false]
  rw [if_neg (by decide)]

theorem pm_photos (fuel n : Nat) (p : List Char) :
    parseMembers (fuel + 3)
      ('\n' :: ' ' :: ' ' :: '"' :: 'p' :: 'h' :: 'o' :: 't' :: 'o' :: 's' :: '_' :: 'f' :: 'o' :: 'l' :: 'd' :: 'e' :: 'r' :: '"' :: ':' :: ' ' :: '"' :: (escapeString p ++ '"' :: ',' :: '\n' :: ' ' :: ' ' :: '"' :: 'i' :: 'd' :: 'l' :: 'e' :: '_' :: 't' :: 'i' :: 'm' :: 'e' :: 'o' :: 'u' :: 't' :: '_' :: 's' :: 'e' :: 'c' :: 'o' :: 'n' :: 'd' :: 's' :: '"' :: ':' :: ' ' :: (renderNat n ++ '\n' :: [rbraceChar])))
      = some ([("photos_folder", Json.str (String.mk p)),
          ("idle_timeout_seconds", Json.num (n : Int))], []) := by
  rw [parseMembers.eq_def]
  simp only []
  rw [skipWs_cons_pos _ _ (by decide), skipWs_cons_pos _ _ (by decide),
    skipWs_cons_pos _ _ (by decide), skipWs_cons_neg _ _ (by decide)]
  simp only [if_true, if_false]
  rw [show ('p' :: 'h' :: 'o' :: 't' :: 'o' :: 's' :: '_' :: 'f' :: 'o' :: 'l' :: 'd' :: 'e' :: 'r' :: '"' :: ':' :: ' ' :: '"' :: (escapeString p ++ '"' :: ',' :: '\n' :: ' ' :: ' ' :: '"' :: 'i' :: 'd' :: 'l' :: 'e' :: '_' :: 't' :: 'i' :: 'm' :: 'e' :: 'o' :: 'u' :: 't' :: '_' :: 's' :: 'e' :: 'c' :: 'o' :: 'n' :: 'd' :: 's' :: '"' :: ':' :: ' ' :: (renderNat n ++ '\n' :: [rbraceChar])))
      = ("photos_folder".data ++ '"' :: ':' :: ' ' :: '"' :: (escapeString p ++ '"' :: ',' :: '\n' :: ' ' :: ' ' :: '"' :: 'i' :: 'd' :: 'l' :: 'e' :: '_' :: 't' :: 'i' :: 'm' :: 'e' :: 'o' :: 'u' :: 't' :: '_' :: 's' :: 'e' :: 'c' :: 'o' :: 'n' :: 'd' :: 's' :: '"' :: ':' :: ' ' :: (renderNat n ++ '\n' :: [rbraceChar]))) from rfl]
  rw [parseStringBody_plain _ _ (by decide)]
  simp only [if_true, if_false]
  rw [skipWs_cons_neg _ _ (by decide)]
  simp only [if_true, if_false]
  rw [parseValue_space_string]
  simp only [if_true, if_false]
  rw [skipWs_cons_neg _ _ (by decide)]
  simp only [if_true, if_false]
  rw [pm_idle]

theorem pm_url (fuel n : Nat) (u p : List Char) :
    parseMembers (fuel + 4)
      ('"' :: 'h' :: 'o' :: 'm' :: 'e' :: '_' :: 'a' :: 's' :: 's' :: 'i' :: 's' :: 't' :: 'a' :: 'n' :: 't' :: '_' :: 'u' :: 'r' :: 'l' :: '"' :: ':' :: ' ' :: '"' :: (escapeString u ++ '"' :: ',' :: '\n' :: ' ' :: ' ' :: '"' :: 'p' :: 'h' :: 'o' :: 't' :: 'o' :: 's' :: '_' :: 'f' :: 'o' :: 'l' :: 'd' :: 'e' :: 'r' :: '"' :: ':' :: ' ' :: '"' :: (escapeString p ++ '"' :: ',' :: '\n' :: ' ' :: ' ' :: '"' :: 'i' :: 'd' :: 'l' :: 'e' :: '_' :: 't' :: 'i' :: 'm' :: 'e' :: 'o' :: 'u' :: 't' :: '_' :: 's' :: 'e' :: 'c' :: 'o' :: 'n' :: 'd' :: 's' :: '"' :: ':' :: ' ' :: (renderNat n ++ '\n' :: [rbraceChar]))))
      = some ([("home_assistant_url", Json.str (String.mk u)),
          ("photos_folder", Json.str (String.mk p)),
          ("idle_timeout_seconds", Json.num (n : Int))], []) := by
  rw [parseMembers.eq_def]
  simp only []
  rw [skipWs_cons_neg _ _ (by decide)]
  simp only [if_true, if_false]
  rw [show ('h' :: 'o' :: 'm' :: 'e' :: '_' :: 'a' :: 's' :: 's' :: 'i' :: 's' :: 't' :: 'a' :: 'n' :: 't' :: '_' :: 'u' :: 'r' :: 'l' :: '"' :: ':' :: ' ' :: '"' :: (escapeString u ++ '"' :: ',' :: '\n' :: ' ' :: ' ' :: '"' :: 'p' :: 'h' :: 'o' :: 't' :: 'o' :: 's' :: '_' :: 'f' :: 'o' :: 'l' :: 'd' :: 'e' :: 'r' :: '"' :: ':' :: ' ' :: '"' :: (escapeString p ++ '"' :: ',' :: '\n' :: ' ' :: ' ' :: '"' :: 'i' :: 'd' :: 'l' :: 'e' :: '_' :: 't' :: 'i' :: 'm' :: 'e' :: 'o' :: 'u' :: 't' :: '_' :: 's' :: 'e' :: 'c' :: 'o' :: 'n' :: 'd' :: 's' :: '"' :: ':' :: ' ' :: (renderNat n ++ '\n' :: [rbraceChar]))))
      = ("home_assistant_url".data ++ '"' :: ':' :: ' ' :: '"' :: (escapeString u ++ '"' :: ',' :: '\n' :: ' ' :: ' ' :: '"' :: 'p' :: 'h' :: 'o' :: 't' :: 'o' :: 's' :: '_' :: 'f' :: 'o' :: 'l' :: 'd' :: 'e' :: 'r' :: '"' :: ':' :: ' ' :: '"' :: (escapeString p ++ '"' :: ',' :: '\n' :: ' ' :: ' ' :: '"' :: 'i' :: 'd' :: 'l' :: 'e' :: '_' :: 't' :: 'i' :: 'm' :: 'e' :: 'o' :: 'u' :: 't' :: '_' :: 's' :: 'e' :: 'c' :: 'o' :: 'n' :: 'd' :: 's' :: '"' :: ':' :: ' ' :: (renderNat n ++ '\n' :: [rbraceChar])))) from rfl]
  rw [parseStringBody_plain _ _ (by decide)]
  simp only [if_true, if_false]
  rw [skipWs_cons_neg _ _ (by decide)]
  simp only [if_true, if_false]
  rw [parseValue_space_string]
  simp only [if_true, if_false]
  rw [skipWs_cons_neg _ _ (by decide)]
  simp only [if_true, if_false]
  rw [pm_photos]

theorem parseValue_configJsonChars (c : Config) (fuel : Nat) :
    parseValue (fuel + 5) (configJsonChars c) = some (configJson c, []) := by
  rw [configJsonChars]
  rw [show "\n  \"home_assistant_url\": \"".data
      = '\n' :: ' ' :: ' ' :: '"' :: ("home_assistant_url".data ++ ['"', ':', ' ', '"'])
    from by decide]
  rw [show "\",\n  \"photos_folder\": \"".data
      = '"' :: ',' :: '\n' :: ' ' :: ' ' :: '"' :: ("photos_folder".data ++ ['"', ':', ' ', '"'])
    from by decide]
  rw [show "\",\n  \"idle_timeout_seconds\": ".data
      = '"' :: ',' :: '\n' :: ' ' :: ' ' :: '"' :: ("idle_timeout_seconds".data ++ ['"', ':', ' '])
    from by decide]
  simp only [List.cons_append, List.nil_append, List.append_assoc]
  rw [parseValue.eq_def]
  simp only []
  rw [skipWs_cons_neg _ _ (by decide)]
  simp only [if_true, if_false]
  rw [skipWs_cons_pos _ _ (by decide), skipWs_cons_pos _ _ (by decide),
    skipWs_cons_pos _ _ (by decide), skipWs_cons_neg _ _ (by decide)]
  simp only [if_true, if_false]
  rw [if_neg (by decide)]
  rw [pm_url]
  rfl

set_option maxHeartbeats 1000000 in
theorem configFromJson_configJson (c : Config) (h : c.Valid) :
    configFromJson (configJson c) = some c := by
  have h1 : (0:Int) ≤ (c.idle_timeout_seconds : Int) ∧
      (c.idle_timeout_seconds : Int) < 4294967296 := by
    constructor
    · exact Int.ofNat_nonneg _
    · rw [Config.Valid] at h
      omega
  simp only [configJson, configFromJson]
  rw [collectFields.eq_def]
  simp only [if_true, if_false]
  rw [collectFields.eq_def]
  simp only [if_true, if_false]
  rw [collectFields.eq_def]
  simp only [if_true, if_false]
  rw [if_pos h1]
  rw [collectFields.eq_def]
  simp only [Int.toNat_natCast]
  rw [if_neg (by decide), if_neg (by decide), if_neg (by decide)]

theorem parseConfigString_configToJsonPretty (c : Config) (h : c.Valid) :
    parseConfigString (configToJsonPretty c) = some c := by
  rw [configToJsonPretty, parseConfigString, parseJson]
  have h4 : 4 <= (configJsonChars c).length := by
    rw [configJsonChars]
    simp [List.length_append]
  rw [show (String.mk (configJsonChars c)).data = configJsonChars c from rfl]
  rw [show (configJsonChars c).length + 1 = ((configJsonChars c).length - 4) + 5 from by omega]
  rw [parseValue_configJsonChars]
  simp only [skipWs, List.dropWhile_nil, if_pos rfl]
  exact configFromJson_configJson c h

theorem scan_fun_eq (e : DirEntry) (ph : String) :
    (match rustExtension e.name.data with
      | some ext => if isImageExt ext then some (photoRef e.name) else none
      | none => none) = some ph ↔ extMatches e.name = true ∧ ph = photoRef e.name := by
  rw [extMatches]
  cases rustExtension e.name.data with
  | none => simp
  | some ext =>
    by_cases hie : isImageExt ext
    · simp [hie, eq_comm]
    · simp [hie]

/-- Claim C1: for every valid `Config` value `v`, performing `update_config`
with `v` (with the durable write succeeding) and then `get_config` returns a
`Config` equal to `v`: the in-memory store holds exactly the value last
written, and the update echoes the stored value. -/
theorem set_then_get_returns_value (s : AppState) (disk : Option String) (v : Config)
    (hv : v.Valid) :
    (get_config (update_config s disk true v).1).2 = v ∧
      (update_config s disk true v).2.2 = some v := by
  simp [get_config, update_config]

theorem set_then_get_returns_value_witness :
    default_config.Valid ∧
      ((get_config (update_config ⟨default_config⟩ none true default_config).1).2
          = default_config ∧
        (update_config ⟨default_config⟩ none true default_config).2.2
          = some default_config) :=
  ⟨by decide, set_then_get_returns_value ⟨default_config⟩ none default_config (by decide)⟩

/-- Claim C2 counterexample: the persisted file content `"x"` is not
parseable, and the startup load then panics (modelled `none`) instead of
returning the documented default — `serde_json::from_str(...).unwrap()` in
`main` propagates the parse error. -/
theorem load_corrupted_counterexample :
    load_config (some "x") = none ∧ load_config (some "x") ≠ some default_config := by
  constructor
  · decide
  · decide

/-- Claim C2 (amended): on a corrupted (non-parseable) persisted file the
startup load panics — the parse result is unwrapped — rather than falling
back to the default; the default is used only when the file is missing. -/
theorem load_corrupted_panics (content : String)
    (hc : parseConfigString content = none) : load_config (some content) = none := by
  simp [load_config, hc]

theorem load_corrupted_panics_witness :
    parseConfigString "x" = none ∧ load_config (some "x") = none :=
  ⟨by decide, load_corrupted_panics "x" (by decide)⟩

/-- Claim C3 counterexample: with the store at the default value and a
failing durable write, `update_config` applied to `⟨"u", "p", 5⟩` does not
return that value — it panics (`none`, the unwrapped `std::fs::write`
error) — although the in-memory value has already been replaced. -/
theorem set_write_failure_counterexample :
    (update_config ⟨default_config⟩ none false ⟨"u", "p", 5⟩).2.2 = none ∧
      (update_config ⟨default_config⟩ none false ⟨"u", "p", 5⟩).2.2 ≠ some ⟨"u", "p", 5⟩ ∧
      (update_config ⟨default_config⟩ none false ⟨"u", "p", 5⟩).1.config = ⟨"u", "p", 5⟩ := by
  refine ⟨rfl, by decide, rfl⟩

/-- Claim C3 (amended): if the durable write fails, the in-memory value has
already been replaced with `v` and the disk file is left as it was, but
`update_config` does not return `v` to the caller: the write failure is
unwrapped, so it panics and propagates — it is not merely logged, and
nothing is rolled back. -/
theorem set_write_failure_behavior (s : AppState) (disk : Option String) (v : Config) :
    update_config s disk false v = (⟨v⟩, disk, none) := by
  simp [update_config]

/-- Claim C4 counterexample: a directory entry named `sub.jpg` that is not
a regular file is still emitted by the scan — the source never checks
file-ness, only the extension — contradicting "keeps exactly those entries
that are files". -/
theorem photo_scan_counterexample :
    get_photos_scan [⟨"a.jpg", true⟩, ⟨"sub.jpg", false⟩]
      = ["/photos/a.jpg", "/photos/sub.jpg"] ∧
      (⟨"sub.jpg", false⟩ : DirEntry).isFile = false := by
  constructor
  · decide
  · rfl

/-- Claim C4 (amended): the scan keeps exactly those entries whose
extension matches one of jpg, jpeg, png, gif, webp case-insensitively —
whether or not the entry is a regular file — and emits each survivor as
`/photos/` followed by the bare name; in particular the file listing
a.jpg, b.txt, C.PNG resolves to exactly /photos/a.jpg and /photos/C.PNG. -/
theorem photo_scan_characterization :
    (∀ (entries : List DirEntry) (ph : String),
      ph ∈ get_photos_scan entries ↔
        ∃ e ∈ entries, extMatches e.name = true ∧ ph = photoRef e.name) ∧
      get_photos_scan [⟨"a.jpg", true⟩, ⟨"b.txt", true⟩, ⟨"C.PNG", true⟩]
        = ["/photos/a.jpg", "/photos/C.PNG"] := by
  constructor
  · intro entries ph
    simp only [get_photos_scan, List.mem_filterMap]
    constructor
    · rintro ⟨e, he, hfe⟩
      rw [scan_fun_eq] at hfe
      exact ⟨e, he, hfe⟩
    · rintro ⟨e, he, hm, hph⟩
      exact ⟨e, he, (scan_fun_eq e ph).mpr ⟨hm, hph⟩⟩
  · decide

/-- Claim C5: whenever the photos directory cannot be opened or enumerated
(`read_dir` fails), `get_photos` answers with the empty list, leaving the
state unchanged, and never surfaces an error. -/
theorem photos_unreadable_dir_empty (s : AppState)
    (readDir : String → Option (List DirEntry))
    (h : readDir s.config.photos_folder = none) :
    get_photos s readDir = (s, []) := by
  simp [get_photos, h]

theorem photos_unreadable_dir_empty_witness :
    ((fun _ : String => (none : Option (List DirEntry)))
        (AppState.mk default_config).config.photos_folder = none) ∧
      get_photos ⟨default_config⟩ (fun _ => none) = (⟨default_config⟩, []) :=
  ⟨rfl, photos_unreadable_dir_empty ⟨default_config⟩ (fun _ => none) rfl⟩

/-- Claim C6: when no persisted file exists, the startup load returns the
documented default configuration — idle timeout 60 seconds, photos folder
`./photos`, and the placeholder automation endpoint — and cannot fail. -/
theorem load_missing_gives_default :
    load_config none = some default_config ∧
      default_config.idle_timeout_seconds = 60 ∧
      default_config.photos_folder = "./photos" ∧
      default_config.home_assistant_url = "http://homeassistant.local:8123" :=
  ⟨rfl, rfl, rfl, rfl⟩

/-- Claim C7: after a successful `update_config` with a valid `v`, the
`config.json` disk file holds exactly the pretty-printed serialization of
`v`, and parsing that text back yields a `Config` equal to `v`. -/
theorem set_persists_roundtrip (s : AppState) (disk : Option String) (v : Config)
    (hv : v.Valid) :
    (update_config s disk true v).2.1 = some (configToJsonPretty v) ∧
      parseConfigString (configToJsonPretty v) = some v :=
  ⟨by simp [update_config], parseConfigString_configToJsonPretty v hv⟩

theorem set_persists_roundtrip_witness :
    default_config.Valid ∧
      ((update_config ⟨default_config⟩ none true default_config).2.1
          = some (configToJsonPretty default_config) ∧
        parseConfigString (configToJsonPretty default_config) = some default_config) :=
  ⟨by decide, set_persists_roundtrip ⟨default_config⟩ none default_config (by decide)⟩

/-- Claim C8: the external-list strategy (modelled from the spec — absent
from the source) succeeds for every configured album-identifier list,
including the empty one, and returns the fixed placeholder list, which does
not depend on the identifiers. -/
theorem external_list_stub_fixed (ids ids2 : List String) :
    external_list_photos ids = placeholder_photos ∧
      external_list_photos ids = external_list_photos ids2 :=
  ⟨rfl, rfl⟩

/-- Claim C10: the read-only operations — `get_config` and `get_photos` —
never modify the stored configuration: the state after either operation
equals the state before it. -/
theorem read_ops_preserve_state (s : AppState)
    (readDir : String → Option (List DirEntry)) :
    (get_config s).1 = s ∧ (get_photos s readDir).1 = s := by
  refine ⟨rfl, ?_⟩
  rw [get_photos]
  cases readDir s.config.photos_folder <;> rfl

end Screensaver
